import Mathlib

/-!
Verification of the configuration-profile resolution and merge engine of
`rustic` (`src/config.rs`), as a shallow embedding in Lean 4.

The embedding follows the Rust source field by field:
* the `merge` crate's field strategies (`merge::bool::overwrite_false`,
  `merge::vec::append`, `merge::vec::overwrite_empty`, the `Merge`
  implementation for `Option` which keeps an existing `Some`, and the
  `extend` strategy for `HashMap`);
* `GlobalOptions`, `RusticConfig` and their derived `Merge` instances;
* `CommandInput` / `CommandInputInternal`, the `shell_words::split`
  tokenizer backing their `FromStr` instances, and `CommandInput::run`
  (process spawning is a function parameter of the model);
* `get_config_paths` / `get_global_config_path` (the platform and the
  environment snapshot are explicit parameters);
* `RusticConfig::merge_profile` (file-system access is a structure of
  explicit functions; the unbounded recursion of the Rust code is
  modelled with a fuel parameter, `MergeStatus.outOfFuel` marking fuel
  exhaustion).

Fields of `RusticConfig` and `GlobalOptions` whose types live in crates
or modules outside this slice (`repository`, `backup`, `copy`, `forget`,
`progress_options`, ...) are omitted: the derived `Merge` instance
combines fields independently, so they do not interact with the fields
modelled here.
-/

namespace Rustic

/-- Log levels of the `log` crate (`log::Level`). -/
inductive Level where
  | error
  | warn
  | info
  | debug
  | trace
deriving DecidableEq, Repr

/-- `merge::bool::overwrite_false`: overwrite `left` with `right` only if
`left` is `false`. -/
def mergeBoolOverwriteFalse (left right : Bool) : Bool :=
  if !left then right else left

/-- `merge::vec::append`: append `right` to `left`. -/
def mergeVecAppend {α : Type} (left right : List α) : List α :=
  left ++ right

/-- `merge::vec::overwrite_empty`: overwrite `left` with `right` only if
`left` is empty. -/
def mergeVecOverwriteEmpty {α : Type} (left right : List α) : List α :=
  if left.isEmpty then right else left

/-- The `merge` crate's `Merge` implementation for `Option`: the incoming
value is taken only when the existing value is `None`. -/
def mergeOptionKeepExisting {α : Type} (left right : Option α) : Option α :=
  if left.isSome then left else right

/-- `HashMap` modelled as an association list whose lookup takes the first
matching key. -/
def mapLookup (m : List (String × String)) (k : String) : Option String :=
  match m with
  | [] => none
  | kv :: rest => if kv.1 = k then some kv.2 else mapLookup rest k

/-- `HashMap::insert`: overwrite the value of an existing key, otherwise
add the binding. -/
def mapInsert (m : List (String × String)) (k v : String) : List (String × String) :=
  match m with
  | [] => [(k, v)]
  | kv :: rest => if kv.1 = k then (k, v) :: rest else kv :: mapInsert rest k v

/-- The `extend` merge strategy of `GlobalOptions::env`
(`left.extend(right)`): insert every binding of `right` into `left`,
incoming keys overwriting existing keys of the same name. -/
def mapExtend (left right : List (String × String)) : List (String × String) :=
  right.foldl (fun m kv => mapInsert m kv.1 kv.2) left

/-- `CommandInputInternal`: the token sequence (program name + arguments)
wrapped by `CommandInput`. -/
structure CommandInputInternal where
  words : List String
deriving DecidableEq, Repr

/-- Derived `Merge` for `CommandInputInternal`: the single field carries
`#[merge(strategy = merge::vec::overwrite_empty)]`. -/
def CommandInputInternal.merge (left right : CommandInputInternal) : CommandInputInternal :=
  ⟨mergeVecOverwriteEmpty left.words right.words⟩

/-- `CommandInput`: a command to be called, given as CLI option or in
config files. -/
structure CommandInput where
  internal : CommandInputInternal
deriving DecidableEq, Repr

/-- Derived `Merge` for `CommandInput`: delegates to the inner
`CommandInputInternal`. -/
def CommandInput.merge (left right : CommandInput) : CommandInput :=
  ⟨left.internal.merge right.internal⟩

/-- `CommandInput::is_set`: true iff the token sequence is non-empty. -/
def CommandInput.is_set (c : CommandInput) : Bool :=
  !c.internal.words.isEmpty

/-- `CommandInput::command`: the first token.  The Rust code indexes
`[0]` and panics when unset; callers must check `is_set` first, so the
default value returned here for an unset input is never observed by
`run`. -/
def CommandInput.command (c : CommandInput) : String :=
  c.internal.words.headD ""

/-- `CommandInput::args`: all tokens after the first. -/
def CommandInput.args (c : CommandInput) : List String :=
  c.internal.words.tail

/-- The scanner states of `shell_words::split` (crate `shell-words`,
backing both `FromStr` implementations). -/
inductive SplitState where
  | delimiter
  | backslash
  | unquoted
  | unquotedBackslash
  | singleQuoted
  | doubleQuoted
  | doubleQuotedBackslash
deriving DecidableEq, Repr

/-- The single-quote character. -/
def chSingleQuote : Char := Char.ofNat 39

/-- The double-quote character. -/
def chDoubleQuote : Char := Char.ofNat 34

/-- The backslash character. -/
def chBackslash : Char := Char.ofNat 92

/-- The newline character. -/
def chNewline : Char := Char.ofNat 10

/-- The tab character. -/
def chTab : Char := Char.ofNat 9

/-- The space character. -/
def chSpace : Char := Char.ofNat 32

/-- The dollar character. -/
def chDollar : Char := Char.ofNat 36

/-- The backtick character. -/
def chBacktick : Char := Char.ofNat 96

/-- The main loop of `shell_words::split`, one clause per Rust match arm:
state, remaining characters, current word, completed words.  `none` is
the `ParseError` return. -/
def splitGo : SplitState → List Char → String → List String → Option (List String)
  | .delimiter, [], _, words => some words
  | .delimiter, c :: cs, word, words =>
    if c = chSingleQuote then splitGo .singleQuoted cs word words
    else if c = chDoubleQuote then splitGo .doubleQuoted cs word words
    else if c = chBackslash then splitGo .backslash cs word words
    else if c = chTab ∨ c = chSpace ∨ c = chNewline then splitGo .delimiter cs word words
    else splitGo .unquoted cs (word.push c) words
  | .backslash, [], word, words => some (words ++ [word.push chBackslash])
  | .backslash, c :: cs, word, words =>
    if c = chNewline then splitGo .delimiter cs word words
    else splitGo .unquoted cs (word.push c) words
  | .unquoted, [], word, words => some (words ++ [word])
  | .unquoted, c :: cs, word, words =>
    if c = chSingleQuote then splitGo .singleQuoted cs word words
    else if c = chDoubleQuote then splitGo .doubleQuoted cs word words
    else if c = chBackslash then splitGo .unquotedBackslash cs word words
    else if c = chTab ∨ c = chSpace ∨ c = chNewline then splitGo .delimiter cs "" (words ++ [word])
    else splitGo .unquoted cs (word.push c) words
  | .unquotedBackslash, [], word, words => some (words ++ [word.push chBackslash])
  | .unquotedBackslash, c :: cs, word, words =>
    if c = chNewline then splitGo .unquoted cs word words
    else splitGo .unquoted cs (word.push c) words
  | .singleQuoted, [], _, _ => none
  | .singleQuoted, c :: cs, word, words =>
    if c = chSingleQuote then splitGo .unquoted cs word words
    else splitGo .singleQuoted cs (word.push c) words
  | .doubleQuoted, [], _, _ => none
  | .doubleQuoted, c :: cs, word, words =>
    if c = chDoubleQuote then splitGo .unquoted cs word words
    else if c = chBackslash then splitGo .doubleQuotedBackslash cs word words
    else splitGo .doubleQuoted cs (word.push c) words
  | .doubleQuotedBackslash, [], _, _ => none
  | .doubleQuotedBackslash, c :: cs, word, words =>
    if c = chNewline then splitGo .doubleQuoted cs word words
    else if c = chDollar ∨ c = chBacktick ∨ c = chDoubleQuote ∨ c = chBackslash then
      splitGo .doubleQuoted cs (word.push c) words
    else splitGo .doubleQuoted cs ((word.push chBackslash).push c) words

/-- The state transition of the `shell_words::split` scanner in
isolation (the scanner state never depends on the accumulated words). -/
def stepState : SplitState → Char → SplitState
  | .delimiter, c =>
    if c = chSingleQuote then .singleQuoted
    else if c = chDoubleQuote then .doubleQuoted
    else if c = chBackslash then .backslash
    else if c = chTab ∨ c = chSpace ∨ c = chNewline then .delimiter
    else .unquoted
  | .backslash, c => if c = chNewline then .delimiter else .unquoted
  | .unquoted, c =>
    if c = chSingleQuote then .singleQuoted
    else if c = chDoubleQuote then .doubleQuoted
    else if c = chBackslash then .unquotedBackslash
    else if c = chTab ∨ c = chSpace ∨ c = chNewline then .delimiter
    else .unquoted
  | .unquotedBackslash, c => if c = chNewline then .unquoted else .unquoted
  | .singleQuoted, c => if c = chSingleQuote then .unquoted else .singleQuoted
  | .doubleQuoted, c =>
    if c = chDoubleQuote then .unquoted
    else if c = chBackslash then .doubleQuotedBackslash
    else .doubleQuoted
  | .doubleQuotedBackslash, _ => .doubleQuoted

/-- A scanner state inside single or double quotes (including a pending
escape inside double quotes): exactly the states in which end of input
is a `ParseError`. -/
def inQuote : SplitState → Bool
  | .singleQuoted => true
  | .doubleQuoted => true
  | .doubleQuotedBackslash => true
  | _ => false

/-- A string has malformed quoting when scanning it leaves the
tokenizer inside a quote. -/
def malformedQuoting (s : String) : Bool :=
  inQuote (s.data.foldl stepState SplitState.delimiter)

/-- The `ParseError` of the `shell-words` crate. -/
inductive ShellParseError where
  | mk
deriving DecidableEq, Repr

/-- `shell_words::split`. -/
def shell_words_split (s : String) : Except ShellParseError (List String) :=
  match splitGo SplitState.delimiter s.data "" [] with
  | none => .error .mk
  | some words => .ok words

/-- `FromStr for CommandInputInternal`: `shell_words::split(s)`. -/
def CommandInputInternal.from_str (s : String) : Except ShellParseError CommandInputInternal :=
  match shell_words_split s with
  | .error e => .error e
  | .ok vec => .ok ⟨vec⟩

/-- `FromStr for CommandInput`: delegates to `CommandInputInternal`. -/
def CommandInput.from_str (s : String) : Except ShellParseError CommandInput :=
  match CommandInputInternal.from_str s with
  | .error e => .error e
  | .ok internal => .ok ⟨internal⟩

/-- `std::process::ExitStatus`, reduced to its `success()` observation. -/
structure ExitStatus where
  success : Bool
deriving DecidableEq, Repr

/-- `std::io::Error`. -/
inductive IOError where
  | mk (msg : String)
deriving DecidableEq, Repr

/-- Observable outcome of `CommandInput::run`: its return value, the
spawn calls it made, and the warnings it emitted. -/
structure RunResult where
  result : Except IOError Unit
  spawned : List (String × List String)
  warnings : List String

/-- `CommandInput::run`.  Spawning is modelled by the function argument
`spawn`, which either fails (the process could not be started) or
returns the exit status of the finished child.  The trace-level log
lines of the Rust code are not modelled; the `warn!` line is the
`warnings` field (the Rust message also appends the `Display` form of
the exit status). -/
def CommandInput.run (spawn : String → List String → Except IOError ExitStatus)
    (c : CommandInput) (info : String) : RunResult :=
  if !c.is_set then
    { result := .ok (), spawned := [], warnings := [] }
  else
    match spawn c.command c.args with
    | .error e => { result := .error e, spawned := [(c.command, c.args)], warnings := [] }
    | .ok status =>
      { result := .ok (), spawned := [(c.command, c.args)],
        warnings :=
          if !status.success then
            ["running command " ++ info ++ " was not successful."]
          else [] }

/-- `GlobalOptions` (only the fields of this slice; `progress_options`
lives in a module outside it). -/
structure GlobalOptions where
  use_profile : List String := []
  dry_run : Bool := false
  check_index : Bool := false
  log_level : Option String := none
  log_file : Option String := none
  env : List (String × String) := []
  run_before : CommandInput := ⟨⟨[]⟩⟩
  run_after : CommandInput := ⟨⟨[]⟩⟩
deriving DecidableEq, Repr

/-- Derived `Merge` for `GlobalOptions`, field by field with the
annotated strategies of the Rust source. -/
def GlobalOptions.merge (left right : GlobalOptions) : GlobalOptions where
  use_profile := mergeVecAppend left.use_profile right.use_profile
  dry_run := mergeBoolOverwriteFalse left.dry_run right.dry_run
  check_index := mergeBoolOverwriteFalse left.check_index right.check_index
  log_level := mergeOptionKeepExisting left.log_level right.log_level
  log_file := mergeOptionKeepExisting left.log_file right.log_file
  env := mapExtend left.env right.env
  run_before := left.run_before.merge right.run_before
  run_after := left.run_after.merge right.run_after

/-- `RusticConfig` (only the `global` field belongs to this slice; the
other fields merge independently). -/
structure RusticConfig where
  global : GlobalOptions := {}
deriving DecidableEq, Repr

/-- Derived `Merge` for `RusticConfig`. -/
def RusticConfig.merge (left right : RusticConfig) : RusticConfig :=
  ⟨left.global.merge right.global⟩

/-- The compile-time platform together with the environment it reads:
`windows` carries the value of the `PROGRAMDATA` environment variable. -/
inductive Platform where
  | windows (programData : Option String)
  | iosOrWasm
  | unix
deriving DecidableEq, Repr

/-- `PathBuf::push` of a relative component (the separator is modelled
as `/` on every platform). -/
def pushPath (p component : String) : String :=
  p ++ "/" ++ component

/-- `get_global_config_path`, all three `cfg` versions: a
`PROGRAMDATA`-derived path on Windows (`None` when the variable is
unset), `None` on iOS/wasm, `/etc/rustic` otherwise. -/
def get_global_config_path : Platform → Option String
  | .windows none => none
  | .windows (some programData) => some (pushPath programData "rustic\\config")
  | .iosOrWasm => none
  | .unix => some "/etc/rustic"

/-- `get_config_paths`: push `filename` onto each determinable source
directory, in order per-user config directory (`ProjectDirs`, an
environment-dependent input modelled as the parameter `userConfigDir`),
global config directory, current directory. -/
def get_config_paths (userConfigDir : Option String) (plat : Platform)
    (filename : String) : List String :=
  ([userConfigDir, get_global_config_path plat, some "."]).filterMap
    (fun path => path.map (fun p => pushPath p filename))

/-- `FrameworkError` (abscissa), reduced to a message. -/
inductive FrameworkError where
  | mk (msg : String)
deriving DecidableEq, Repr

/-- The file-system and environment operations `merge_profile` uses:
`Path::exists`, `AbsPathBuf::canonicalize` and
`RusticConfig::load_toml_file` (the latter returns a parse /
unknown-field / read error as `FrameworkError`), plus the inputs of
`get_config_paths`. -/
structure FileSystem where
  userConfigDir : Option String
  platform : Platform
  pathExists : String → Bool
  canonicalize : String → Except FrameworkError String
  load_toml_file : String → Except FrameworkError RusticConfig

/-- How a call of `merge_profile` ended: success, a propagated
`FrameworkError`, or exhaustion of the fuel that stands in for the
unbounded recursion of the Rust code. -/
inductive MergeStatus where
  | ok
  | err (e : FrameworkError)
  | outOfFuel
deriving DecidableEq, Repr

/-- The state after a call of `merge_profile`: the (possibly updated)
accumulator `&mut self`, the log sink `&mut merge_logs`, and the
returned status. -/
structure MergeOutcome where
  config : RusticConfig
  logs : List (Level × String)
  status : MergeStatus
deriving DecidableEq, Repr

/-- `itertools::join` of the probed paths with `", "`. -/
def joinPaths (paths : List String) : String :=
  String.intercalate ", " paths

/-- The `for profile in &config.global.use_profile.clone()` loop of
`merge_profile`: run `f` (a recursive `merge_profile` call) on each
name in turn, threading the document and the logs, stopping at the
first non-`ok` status as the `?` operator does. -/
def runUseProfiles (f : String → RusticConfig → List (Level × String) → MergeOutcome) :
    List String → RusticConfig → List (Level × String) → MergeOutcome
  | [], config, logs => ⟨config, logs, .ok⟩
  | p :: ps, config, logs =>
    let r := f p config logs
    match r.status with
    | .ok => runUseProfiles f ps r.config r.logs
    | _ => r

/-- `RusticConfig::merge_profile`.  `fuel` bounds the recursion depth
the model can follow; the Rust code has no such bound (and no cycle
detection), which is what `MergeStatus.outOfFuel` makes visible. -/
def merge_profile (fs : FileSystem) :
    Nat → String → Level → RusticConfig → List (Level × String) → MergeOutcome
  | 0, _, _, self, logs => ⟨self, logs, .outOfFuel⟩
  | fuel + 1, profile, level_missing, self, logs =>
    let profile_filename := profile ++ ".toml"
    let paths := get_config_paths fs.userConfigDir fs.platform profile_filename
    match paths.find? fs.pathExists with
    | some path =>
      let logs := logs ++ [(Level.info, "using config " ++ path)]
      match fs.canonicalize path with
      | .error e => ⟨self, logs, .err e⟩
      | .ok canonicalPath =>
        match fs.load_toml_file canonicalPath with
        | .error e => ⟨self, logs, .err e⟩
        | .ok config =>
          let r := runUseProfiles
            (fun p c lg => merge_profile fs fuel p Level.warn c lg)
            config.global.use_profile config logs
          match r.status with
          | .ok => ⟨self.merge r.config, r.logs, .ok⟩
          | s => ⟨self, r.logs, s⟩
    | none =>
      ⟨self,
        logs ++ [(level_missing,
          "using no config file, none of these exist: " ++ joinPaths paths)],
        .ok⟩

/-- The profile names a profile's document references: the
`use_profile` list of the document `merge_profile` would load for it,
`[]` when no candidate path exists or loading fails. -/
def profileRefs (fs : FileSystem) (profile : String) : List String :=
  let paths := get_config_paths fs.userConfigDir fs.platform (profile ++ ".toml")
  match paths.find? fs.pathExists with
  | none => []
  | some path =>
    match fs.canonicalize path with
    | .error _ => []
    | .ok canonicalPath =>
      match fs.load_toml_file canonicalPath with
      | .error _ => []
      | .ok config => config.global.use_profile

/-- An absolute path in the Unix sense: its first character is the path
separator. -/
def isAbsolutePath (s : String) : Bool :=
  match s.data with
  | [] => false
  | c :: _ => c = Char.ofNat 47

/-- Profile document of `A` in the three-level chain: uses `B`, sets the
scalar `log_level`. -/
def chainDocA (la : String) : RusticConfig :=
  ⟨{ use_profile := ["B"], log_level := some la }⟩

/-- Profile document of `B` in the three-level chain: uses `C`, sets
`log_level` and `log_file`. -/
def chainDocB (lb fb : String) : RusticConfig :=
  ⟨{ use_profile := ["C"], log_level := some lb, log_file := some fb }⟩

/-- Profile document of `C` in the three-level chain: sets `log_level`,
`log_file` and `dry_run`. -/
def chainDocC (lc fc : String) : RusticConfig :=
  ⟨{ log_level := some lc, log_file := some fc, dry_run := true }⟩

/-- File system holding the three-level profile chain `A` uses `B`,
`B` uses `C`, with `log_level` set differently in all three. -/
def fsChain (la lb fb lc fc : String) : FileSystem where
  userConfigDir := none
  platform := .unix
  pathExists := fun p =>
    p = "/etc/rustic/A.toml" || p = "/etc/rustic/B.toml" || p = "/etc/rustic/C.toml"
  canonicalize := .ok
  load_toml_file := fun p =>
    if p = "/etc/rustic/A.toml" then .ok (chainDocA la)
    else if p = "/etc/rustic/B.toml" then .ok (chainDocB lb fb)
    else if p = "/etc/rustic/C.toml" then .ok (chainDocC lc fc)
    else .error (.mk "not found")

/-- File system where `A` exists and references `B`, but no file for `B`
exists. -/
def fsChainMissingB (la : String) : FileSystem where
  userConfigDir := none
  platform := .unix
  pathExists := fun p => p = "/etc/rustic/A.toml"
  canonicalize := .ok
  load_toml_file := fun p =>
    if p = "/etc/rustic/A.toml" then .ok (chainDocA la) else .error (.mk "not found")

/-- File system on which no candidate path exists (per-user config
directory determinable, so three paths are probed). -/
def fsAllMissing : FileSystem where
  userConfigDir := some "/home/user/.config/rustic"
  platform := .unix
  pathExists := fun _ => false
  canonicalize := .ok
  load_toml_file := fun _ => .error (.mk "unreadable")

/-- The document of the self-referencing profile `loop`. -/
def loopDoc : RusticConfig := ⟨{ use_profile := ["loop"] }⟩

/-- File system holding a profile `loop` whose document references
`loop` itself. -/
def fsLoop : FileSystem where
  userConfigDir := none
  platform := .unix
  pathExists := fun p => p = "/etc/rustic/loop.toml"
  canonicalize := .ok
  load_toml_file := fun p =>
    if p = "/etc/rustic/loop.toml" then .ok loopDoc else .error (.mk "not found")

/-- File system without any profile file (a trivially acyclic reference
graph). -/
def fsNoFiles : FileSystem where
  userConfigDir := none
  platform := .iosOrWasm
  pathExists := fun _ => false
  canonicalize := .ok
  load_toml_file := fun _ => .error (.mk "not found")

/-- File system where the file for profile `bad` exists but fails to
load (parse error / unknown field / unreadable). -/
def fsParseFailure : FileSystem where
  userConfigDir := none
  platform := .unix
  pathExists := fun p => p = "/etc/rustic/bad.toml"
  canonicalize := .ok
  load_toml_file := fun _ => .error (.mk "parse error")

/-- The `shell_words::split` loop errors exactly when the scan of the
remaining input ends inside a quote: the produced words never influence
the error behaviour. -/
theorem splitGo_eq_none_iff (cs : List Char) :
    ∀ (st : SplitState) (word : String) (words : List String),
      splitGo st cs word words = none ↔ inQuote (cs.foldl stepState st) = true := by
  induction cs with
  | nil =>
    intro st word words
    cases st <;> simp [splitGo, inQuote, List.foldl_nil]
  | cons c cs ih =>
    intro st word words
    cases st <;>
      simp only [splitGo, stepState, List.foldl_cons] <;>
      split_ifs <;>
      apply ih

/-- `merge::bool::overwrite_false` is boolean disjunction. -/
theorem mergeBoolOverwriteFalse_eq_or (l r : Bool) :
    mergeBoolOverwriteFalse l r = (l || r) := by
  cases l <;> rfl

/-- The `use_profile` loop only appends to the log sink. -/
theorem runUseProfiles_logs_extend
    (f : String → RusticConfig → List (Level × String) → MergeOutcome)
    (hf : ∀ q c lg, ∃ t, (f q c lg).logs = lg ++ t) :
    ∀ (ps : List String) (c : RusticConfig) (lg : List (Level × String)),
      ∃ t, (runUseProfiles f ps c lg).logs = lg ++ t := by
  intro ps
  induction ps with
  | nil => intro c lg; exact ⟨[], by simp [runUseProfiles]⟩
  | cons p ps ih =>
    intro c lg
    obtain ⟨t, ht⟩ := hf p c lg
    simp only [runUseProfiles]
    split
    · obtain ⟨t2, ht2⟩ := ih (f p c lg).config (f p c lg).logs
      exact ⟨t ++ t2, by rw [ht2, ht, List.append_assoc]⟩
    · exact ⟨t, ht⟩

/-- `merge_profile` only appends to the log sink. -/
theorem merge_profile_logs_extend (fs : FileSystem) :
    ∀ (fuel : Nat) (profile : String) (lvl : Level) (self : RusticConfig)
      (logs : List (Level × String)),
      ∃ t, (merge_profile fs fuel profile lvl self logs).logs = logs ++ t := by
  intro fuel
  induction fuel with
  | zero => intro profile lvl self logs; exact ⟨[], by simp [merge_profile]⟩
  | succ f ih =>
    intro profile lvl self logs
    simp only [merge_profile]
    split
    · rename_i path hfind
      split
      · exact ⟨_, rfl⟩
      · rename_i cpath hcanon
        split
        · exact ⟨_, rfl⟩
        · rename_i config hload
          obtain ⟨t, ht⟩ := runUseProfiles_logs_extend
            (fun p c lg => merge_profile fs f p Level.warn c lg)
            (fun q c lg => ih q Level.warn c lg)
            config.global.use_profile config
            (logs ++ [(Level.info, "using config " ++ path)])
          split <;> exact ⟨_, ht.trans (List.append_assoc _ _ _)⟩
    · exact ⟨_, rfl⟩

/-- The `use_profile` loop cannot exhaust fuel when none of its
recursive calls can. -/
theorem runUseProfiles_status_not_fuel
    (f : String → RusticConfig → List (Level × String) → MergeOutcome)
    (ps : List String)
    (hf : ∀ q ∈ ps, ∀ c lg, (f q c lg).status ≠ MergeStatus.outOfFuel) :
    ∀ (c : RusticConfig) (lg : List (Level × String)),
      (runUseProfiles f ps c lg).status ≠ MergeStatus.outOfFuel := by
  induction ps with
  | nil => intro c lg; simp [runUseProfiles]
  | cons p ps ih =>
    intro c lg
    simp only [runUseProfiles]
    split
    · exact ih (fun q hq => hf q (List.mem_cons_of_mem p hq)) _ _
    · intro hcontra
      exact hf p (List.mem_cons_self p ps) c lg hcontra

/-- With a measure that strictly decreases along profile references
(which is what acyclicity of the finite reference graph provides), a
fuel larger than the starting profile's measure is never exhausted. -/
theorem merge_profile_acyclic_terminates (fs : FileSystem) (μ : String → Nat)
    (hacyc : ∀ p q, q ∈ profileRefs fs p → μ q < μ p) :
    ∀ (fuel : Nat) (p : String) (lvl : Level) (self : RusticConfig)
      (logs : List (Level × String)), μ p < fuel →
      (merge_profile fs fuel p lvl self logs).status ≠ MergeStatus.outOfFuel := by
  intro fuel
  induction fuel with
  | zero => intro p lvl self logs h; omega
  | succ f ih =>
    intro p lvl self logs hp
    simp only [merge_profile]
    split
    · rename_i path hfind
      split
      · simp
      · rename_i cpath hcanon
        split
        · simp
        · rename_i config hload
          have hrefs : profileRefs fs p = config.global.use_profile := by
            simp [profileRefs, hfind, hcanon, hload]
          have hq : ∀ q ∈ config.global.use_profile, ∀ c lg,
              (merge_profile fs f q Level.warn c lg).status ≠ MergeStatus.outOfFuel := by
            intro q hq c lg
            have hμq : μ q < μ p := hacyc p q (hrefs ▸ hq)
            exact ih q Level.warn c lg (by omega)
          have hr := runUseProfiles_status_not_fuel _ _ hq config
            (logs ++ [(Level.info, "using config " ++ path)])
          split
          · simp
          · exact hr
    · simp

/-- On the self-referencing profile `loop`, every fuel is exhausted:
the fuel-indexed approximations of the Rust recursion never settle,
i.e. the recursion does not terminate. -/
theorem merge_profile_loop_diverges :
    ∀ (fuel : Nat) (lvl : Level) (self : RusticConfig) (logs : List (Level × String)),
      (merge_profile fsLoop fuel "loop" lvl self logs).status = MergeStatus.outOfFuel := by
  intro fuel
  induction fuel with
  | zero => intro lvl self logs; rfl
  | succ f ih =>
    intro lvl self logs
    have hfind : List.find? fsLoop.pathExists
        (get_config_paths fsLoop.userConfigDir fsLoop.platform ("loop" ++ ".toml")) =
        some "/etc/rustic/loop.toml" := rfl
    have hcanon : fsLoop.canonicalize "/etc/rustic/loop.toml" =
        Except.ok "/etc/rustic/loop.toml" := rfl
    have hload : fsLoop.load_toml_file "/etc/rustic/loop.toml" = Except.ok loopDoc := rfl
    simp only [merge_profile, hfind, hcanon, hload, runUseProfiles]
    simp only [ih]

/-- A `merge_profile` call that returns an error has not touched its
accumulator: the accumulator is only merged into after the whole
subtree succeeded. -/
theorem merge_profile_err_config (fs : FileSystem) (fuel : Nat) (profile : String)
    (lvl : Level) (self : RusticConfig) (logs : List (Level × String)) (e : FrameworkError)
    (h : (merge_profile fs fuel profile lvl self logs).status = MergeStatus.err e) :
    (merge_profile fs fuel profile lvl self logs).config = self := by
  cases fuel with
  | zero => rfl
  | succ f =>
    simp only [merge_profile] at h ⊢
    split at h
    · split at h
      · rfl
      · split at h
        · rfl
        · split at h
          · simp at h
          · rfl
    · rfl

/-- C1: in the chain `A` uses `B`, `B` uses `C` with the scalar
`log_level` set differently in all three, `merge_profile` resolves and
merges the referenced profiles (recursively, with missing-profile
severity `Warn`) before `A`'s document reaches the caller's
accumulator, so `A`'s explicit values override `B`'s and `C`'s, `B`'s
override `C`'s (`log_file`), and all three override not-yet-set
defaults (`dry_run` comes from `C`). -/
theorem c1_nested_profile_precedence (la lb fb lc fc : String)
    (_hab : la ≠ lb) (_hbc : lb ≠ lc) (_hac : la ≠ lc) :
    (merge_profile (fsChain la lb fb lc fc) 3 "A" Level.info {} []).status =
      MergeStatus.ok ∧
    (merge_profile (fsChain la lb fb lc fc) 3 "A" Level.info {} []).config.global.log_level =
      some la ∧
    (merge_profile (fsChain la lb fb lc fc) 3 "A" Level.info {} []).config.global.log_file =
      some fb ∧
    (merge_profile (fsChain la lb fb lc fc) 3 "A" Level.info {} []).config.global.dry_run =
      true ∧
    (∀ lvl : Level,
      (merge_profile (fsChainMissingB la) 2 "A" lvl {} []).logs =
        [(Level.info, "using config /etc/rustic/A.toml"),
         (Level.warn, "using no config file, none of these exist: /etc/rustic/B.toml, ./B.toml")]) :=
  ⟨rfl, rfl, rfl, rfl, fun _ => rfl⟩

/-- C1 witness: the chain theorem at `debug` / `info` / `trace`. -/
theorem c1_nested_profile_precedence_witness :
    (merge_profile (fsChain "debug" "info" "b.log" "trace" "c.log") 3 "A"
      Level.info {} []).config.global.log_level = some "debug" ∧
    (merge_profile (fsChain "debug" "info" "b.log" "trace" "c.log") 3 "A"
      Level.info {} []).config.global.log_file = some "b.log" ∧
    (merge_profile (fsChain "debug" "info" "b.log" "trace" "c.log") 3 "A"
      Level.info {} []).config.global.dry_run = true :=
  ⟨(c1_nested_profile_precedence "debug" "info" "b.log" "trace" "c.log"
      (by decide) (by decide) (by decide)).2.1,
   (c1_nested_profile_precedence "debug" "info" "b.log" "trace" "c.log"
      (by decide) (by decide) (by decide)).2.2.1,
   (c1_nested_profile_precedence "debug" "info" "b.log" "trace" "c.log"
      (by decide) (by decide) (by decide)).2.2.2.1⟩

/-- C2 counterexample: when the accumulator already holds `log_level`
and `log_file` values, merging an incoming profile that sets both
differently leaves the accumulator's values in place — the incoming
values do NOT win. -/
theorem c2_incoming_overwrites_counterexample :
    (({ log_level := some "debug", log_file := some "a.log" } : GlobalOptions).merge
      { log_level := some "info", log_file := some "b.log" }).log_level = some "debug" ∧
    (({ log_level := some "debug", log_file := some "a.log" } : GlobalOptions).merge
      { log_level := some "info", log_file := some "b.log" }).log_file = some "a.log" ∧
    ("debug" : String) ≠ "info" ∧ ("a.log" : String) ≠ "b.log" :=
  ⟨rfl, rfl, by decide, by decide⟩

/-- C2 (amended): for `log_level` and `log_file` the existing
(accumulator) value wins — the incoming value is taken only when the
accumulator's field is still unset. -/
theorem c2_log_fields_keep_existing (l r : GlobalOptions) :
    (∀ v, l.log_level = some v → (l.merge r).log_level = some v) ∧
    (l.log_level = none → (l.merge r).log_level = r.log_level) ∧
    (∀ v, l.log_file = some v → (l.merge r).log_file = some v) ∧
    (l.log_file = none → (l.merge r).log_file = r.log_file) := by
  refine ⟨fun v h => ?_, fun h => ?_, fun v h => ?_, fun h => ?_⟩ <;>
    simp [GlobalOptions.merge, mergeOptionKeepExisting, h]

/-- C2 (amended) witness: both directions at concrete options. -/
theorem c2_log_fields_keep_existing_witness :
    (({ log_level := some "debug" } : GlobalOptions).merge
      { log_level := some "info" }).log_level = some "debug" ∧
    (({} : GlobalOptions).merge { log_level := some "info" }).log_level = some "info" :=
  ⟨(c2_log_fields_keep_existing { log_level := some "debug" }
      { log_level := some "info" }).1 "debug" rfl,
   ((c2_log_fields_keep_existing {} { log_level := some "info" }).2.1 rfl).trans rfl⟩

/-- C3 counterexample: for a missing profile with three probed paths,
`merge_profile` appends one single log entry (listing all probed
paths), not one entry per probed path. -/
theorem c3_missing_profile_counterexample :
    (get_config_paths fsAllMissing.userConfigDir fsAllMissing.platform
      "rustic.toml").length = 3 ∧
    (merge_profile fsAllMissing 1 "rustic" Level.info {} []).logs.length = 1 ∧
    (merge_profile fsAllMissing 1 "rustic" Level.info {} []).status = MergeStatus.ok ∧
    (merge_profile fsAllMissing 1 "rustic" Level.info {} []).config = {} ∧
    (1 : Nat) ≠ 3 :=
  ⟨rfl, rfl, rfl, rfl, by decide⟩

/-- C3 (amended): when no candidate path exists, `merge_profile`
appends exactly one log entry at the caller-given missing-profile
severity, listing all probed paths, leaves the accumulator unchanged
and returns success. -/
theorem c3_missing_profile_single_entry (fs : FileSystem) (fuel : Nat) (profile : String)
    (lvl : Level) (self : RusticConfig) (logs : List (Level × String))
    (h : ∀ p ∈ get_config_paths fs.userConfigDir fs.platform (profile ++ ".toml"),
      fs.pathExists p = false) :
    merge_profile fs (fuel + 1) profile lvl self logs =
      ⟨self,
        logs ++ [(lvl, "using no config file, none of these exist: " ++
          joinPaths (get_config_paths fs.userConfigDir fs.platform (profile ++ ".toml")))],
        MergeStatus.ok⟩ := by
  have hfind : List.find? fs.pathExists
      (get_config_paths fs.userConfigDir fs.platform (profile ++ ".toml")) = none := by
    rw [List.find?_eq_none]
    intro x hx
    simp [h x hx]
  simp [merge_profile, hfind]

/-- C3 (amended) witness: the missing-profile behaviour on the file
system where nothing exists. -/
theorem c3_missing_profile_single_entry_witness :
    merge_profile fsAllMissing 1 "rustic" Level.warn {} [] =
      ⟨{}, [(Level.warn, "using no config file, none of these exist: " ++
        joinPaths (get_config_paths fsAllMissing.userConfigDir fsAllMissing.platform
          ("rustic" ++ ".toml")))],
        MergeStatus.ok⟩ :=
  c3_missing_profile_single_entry fsAllMissing 0 "rustic" Level.warn {} []
    (fun _ _ => rfl)

/-- C4: there is no cycle detection, but for every acyclic
profile-reference graph (witnessed, as for any finite acyclic graph, by
a measure strictly decreasing along references) `merge_profile`
terminates — a large enough fuel is never exhausted — while on the
self-referencing profile `loop` every fuel is exhausted, i.e. the
recursion is unbounded. -/
theorem c4_termination_without_cycle_detection :
    (∀ (fs : FileSystem) (μ : String → Nat),
      (∀ p q, q ∈ profileRefs fs p → μ q < μ p) →
      ∀ (fuel : Nat) (p : String) (lvl : Level) (self : RusticConfig)
        (logs : List (Level × String)), μ p < fuel →
        (merge_profile fs fuel p lvl self logs).status ≠ MergeStatus.outOfFuel) ∧
    (∀ (fuel : Nat) (lvl : Level) (self : RusticConfig)
      (logs : List (Level × String)),
      (merge_profile fsLoop fuel "loop" lvl self logs).status = MergeStatus.outOfFuel) :=
  ⟨merge_profile_acyclic_terminates, merge_profile_loop_diverges⟩

/-- C4 witness: termination on an empty (acyclic) reference graph, and
fuel exhaustion at fuel 3 on the self-referencing profile. -/
theorem c4_termination_without_cycle_detection_witness :
    (merge_profile fsNoFiles 1 "rustic" Level.info {} []).status ≠
      MergeStatus.outOfFuel ∧
    (merge_profile fsLoop 3 "loop" Level.info {} []).status = MergeStatus.outOfFuel :=
  ⟨c4_termination_without_cycle_detection.1 fsNoFiles (fun _ => 0)
      (fun _ q hq => absurd hq (List.not_mem_nil q)) 1 "rustic" Level.info {} []
      (by decide),
   c4_termination_without_cycle_detection.2 3 Level.info {} []⟩

/-- C5: `run` on an unset command returns success without spawning; on
a set command it spawns exactly once, fails only when spawning fails,
and a non-zero exit status still yields success together with a
warning. -/
theorem c5_run_contract (spawn : String → List String → Except IOError ExitStatus)
    (c : CommandInput) (info : String) :
    (c.is_set = false →
      c.run spawn info = ⟨Except.ok (), [], []⟩) ∧
    (c.is_set = true →
      (∀ e, spawn c.command c.args = Except.error e →
        c.run spawn info = ⟨Except.error e, [(c.command, c.args)], []⟩) ∧
      (∀ st, spawn c.command c.args = Except.ok st →
        (c.run spawn info).result = Except.ok () ∧
        (c.run spawn info).spawned = [(c.command, c.args)] ∧
        ((c.run spawn info).warnings = [] ↔ st.success = true))) := by
  constructor
  · intro h
    simp [CommandInput.run, h]
  · intro h
    refine ⟨fun e he => ?_, fun st hst => ?_⟩
    · simp [CommandInput.run, h, he]
    · cases hs : st.success <;> simp [CommandInput.run, h, hst, hs]

/-- C5 witness: an unset command, and a set command whose child exits
with failure status. -/
theorem c5_run_contract_witness :
    CommandInput.run (fun _ _ => Except.ok ⟨false⟩) ⟨⟨[]⟩⟩ "hook" =
      ⟨Except.ok (), [], []⟩ ∧
    (CommandInput.run (fun _ _ => Except.ok ⟨false⟩) ⟨⟨["run-me"]⟩⟩ "hook").result =
      Except.ok () ∧
    ¬ (CommandInput.run (fun _ _ => Except.ok ⟨false⟩) ⟨⟨["run-me"]⟩⟩ "hook").warnings = [] := by
  refine ⟨(c5_run_contract (fun _ _ => Except.ok ⟨false⟩) ⟨⟨[]⟩⟩ "hook").1 rfl,
    ((c5_run_contract (fun _ _ => Except.ok ⟨false⟩) ⟨⟨["run-me"]⟩⟩ "hook").2 rfl).2
      ⟨false⟩ rfl |>.1,
    fun hcontra => ?_⟩
  have := (((c5_run_contract (fun _ _ => Except.ok ⟨false⟩) ⟨⟨["run-me"]⟩⟩ "hook").2 rfl).2
      ⟨false⟩ rfl).2.2.mp hcontra
  simp at this

/-- C6: `from_str` tokenizes by POSIX shell word splitting — the
example splits into its three words, an unterminated quote fails, and in
general parsing fails exactly when the input has malformed quoting
(the scan ends inside a quote). -/
theorem c6_from_str_tokenization :
    CommandInput.from_str "run-me --flag \"value with spaces\"" =
      Except.ok ⟨⟨["run-me", "--flag", "value with spaces"]⟩⟩ ∧
    CommandInput.from_str "\"unterminated" = Except.error ShellParseError.mk ∧
    ∀ s : String, (∃ e, CommandInput.from_str s = Except.error e) ↔
      malformedQuoting s = true := by
  refine ⟨rfl, rfl, fun s => ?_⟩
  have h := splitGo_eq_none_iff s.data SplitState.delimiter "" []
  unfold CommandInput.from_str CommandInputInternal.from_str shell_words_split malformedQuoting
  cases hsp : splitGo SplitState.delimiter s.data "" [] with
  | none =>
    rw [hsp] at h
    simp at h
    simp [h]
    exact ⟨ShellParseError.mk, trivial⟩
  | some words =>
    rw [hsp] at h
    simp at h
    simp [h]

/-- C7 counterexample: the current-working-directory candidate is the
relative path `./<filename>`, so not every candidate path is
absolute. -/
theorem c7_relative_cwd_counterexample :
    "./rustic.toml" ∈ get_config_paths none Platform.unix "rustic.toml" ∧
    isAbsolutePath "./rustic.toml" = false ∧
    isAbsolutePath "/etc/rustic/rustic.toml" = true := by
  refine ⟨by decide, rfl, rfl⟩

/-- C7 (amended): the candidate list is built in order per-user config
directory (when determinable), platform global config directory
(`/etc/rustic` on Unix-likes, `PROGRAMDATA`-derived on Windows, none on
iOS/wasm), current working directory (as the relative path `.`), each
with the filename pushed, and an undeterminable source is omitted
without error. -/
theorem c7_config_paths_order (u : Option String) (plat : Platform) (f : String) :
    get_config_paths u plat f =
      (match u with | some d => [pushPath d f] | none => []) ++
      (match get_global_config_path plat with | some d => [pushPath d f] | none => []) ++
      [pushPath "." f] ∧
    get_global_config_path Platform.unix = some "/etc/rustic" ∧
    get_global_config_path Platform.iosOrWasm = none ∧
    get_global_config_path (Platform.windows none) = none ∧
    (∀ pd, get_global_config_path (Platform.windows (some pd)) =
      some (pushPath pd "rustic\\config")) := by
  refine ⟨?_, rfl, rfl, rfl, fun pd => rfl⟩
  cases u <;> rcases plat with (_ | pd) | _ | _ <;> rfl

/-- C8: a command-hook token sequence is replaced by the incoming one
only when the existing one is empty; a non-empty hook survives every
later merge unchanged, and the `run_before` / `run_after` fields of
`GlobalOptions` merge by exactly this rule. -/
theorem c8_hook_first_nonempty_wins (l r : CommandInput) (gl gr : GlobalOptions) :
    (l.is_set = true → l.merge r = l) ∧
    (l.is_set = false → l.merge r = r) ∧
    (gl.merge gr).run_before = gl.run_before.merge gr.run_before ∧
    (gl.merge gr).run_after = gl.run_after.merge gr.run_after := by
  refine ⟨fun h => ?_, fun h => ?_, rfl, rfl⟩
  · have hw : l.internal.words.isEmpty = false := by
      simpa [CommandInput.is_set] using h
    simp [CommandInput.merge, CommandInputInternal.merge, mergeVecOverwriteEmpty, hw]
  · have hw : l.internal.words.isEmpty = true := by
      simpa [CommandInput.is_set] using h
    simp [CommandInput.merge, CommandInputInternal.merge, mergeVecOverwriteEmpty, hw]

/-- C8 witness: a set hook survives an explicitly empty incoming value,
and an empty hook takes the incoming value. -/
theorem c8_hook_first_nonempty_wins_witness :
    CommandInput.merge ⟨⟨["echo", "hi"]⟩⟩ ⟨⟨[]⟩⟩ = ⟨⟨["echo", "hi"]⟩⟩ ∧
    CommandInput.merge ⟨⟨[]⟩⟩ ⟨⟨["echo", "hi"]⟩⟩ = ⟨⟨["echo", "hi"]⟩⟩ :=
  ⟨(c8_hook_first_nonempty_wins ⟨⟨["echo", "hi"]⟩⟩ ⟨⟨[]⟩⟩ {} {}).1 rfl,
   (c8_hook_first_nonempty_wins ⟨⟨[]⟩⟩ ⟨⟨["echo", "hi"]⟩⟩ {} {}).2.1 rfl⟩

/-- C9: the `dry_run` and `check_index` flags merge to the disjunction
of the two values — the merged flag is true exactly when at least one
input is true, and an incoming `false` never changes the accumulator. -/
theorem c9_bool_flags_or (l r : GlobalOptions) :
    (l.merge r).dry_run = (l.dry_run || r.dry_run) ∧
    (l.merge r).check_index = (l.check_index || r.check_index) ∧
    (r.dry_run = false → (l.merge r).dry_run = l.dry_run) ∧
    (r.check_index = false → (l.merge r).check_index = l.check_index) := by
  refine ⟨mergeBoolOverwriteFalse_eq_or _ _, mergeBoolOverwriteFalse_eq_or _ _,
    fun h => ?_, fun h => ?_⟩
  · exact (mergeBoolOverwriteFalse_eq_or _ _).trans (by rw [h, Bool.or_false])
  · exact (mergeBoolOverwriteFalse_eq_or _ _).trans (by rw [h, Bool.or_false])

/-- C9 witness: an incoming `false` does not clear already-true
flags. -/
theorem c9_bool_flags_or_witness :
    (({ dry_run := true, check_index := true } : GlobalOptions).merge {}).dry_run = true ∧
    (({ dry_run := true, check_index := true } : GlobalOptions).merge {}).check_index = true :=
  ⟨(c9_bool_flags_or { dry_run := true, check_index := true } {}).2.2.1 rfl,
   (c9_bool_flags_or { dry_run := true, check_index := true } {}).2.2.2 rfl⟩

/-- C10: a `merge_profile` call that returns a hard failure leaves the
caller's accumulator completely unchanged (the parsed document is
merged only after the whole recursive subtree succeeded), while log
entries appended before the failure remain in the sink (the log list
only grows). -/
theorem c10_accumulator_unchanged_on_error (fs : FileSystem) (fuel : Nat)
    (profile : String) (lvl : Level) (self : RusticConfig)
    (logs : List (Level × String)) (e : FrameworkError)
    (h : (merge_profile fs fuel profile lvl self logs).status = MergeStatus.err e) :
    (merge_profile fs fuel profile lvl self logs).config = self ∧
    ∃ t, (merge_profile fs fuel profile lvl self logs).logs = logs ++ t :=
  ⟨merge_profile_err_config fs fuel profile lvl self logs e h,
   merge_profile_logs_extend fs fuel profile lvl self logs⟩

/-- C10 witness: a failing load leaves a pre-seeded accumulator
unchanged while the `using config` log entry remains. -/
theorem c10_accumulator_unchanged_on_error_witness :
    (merge_profile fsParseFailure 1 "bad" Level.info
      ⟨{ log_level := some "debug" }⟩ []).config = ⟨{ log_level := some "debug" }⟩ ∧
    ∃ t, (merge_profile fsParseFailure 1 "bad" Level.info
      ⟨{ log_level := some "debug" }⟩ []).logs = [] ++ t :=
  c10_accumulator_unchanged_on_error fsParseFailure 1 "bad" Level.info
    ⟨{ log_level := some "debug" }⟩ [] (.mk "parse error") rfl

end Rustic
